import Mathlib

/-
Verification development for the forecasting-benchmark-engine repository.

The engine's numeric core lives in src/metrics_calculator.py
(calculate_metrics, 7 point metrics) and src/benchmark_engine.py
(BenchmarkEngine.calculate_metrics, 5 point metrics, plus run_benchmark
and _calculate_summary for aggregation and ranking).

Finite IEEE-754 doubles are modelled as rationals.  numpy/pandas do not
raise on division by zero: they produce inf, -inf or nan, and a pandas
Series mean skips nan (skipna=True) but propagates inf.  That behaviour
is modelled explicitly by the PVal type below.  Rounding ties
(Python's round is banker's rounding on binary floats, the model rounds
half away from the floor) are not exercised by any claim.
-/

/-- A value of numpy/pandas float arithmetic: a finite value (exact
rational, no -0.0 distinction), +inf, -inf, or nan. -/
inductive PVal where
  | fin (q : ℚ)
  | inf
  | ninf
  | nan
deriving DecidableEq

namespace PVal

/-- IEEE-754 addition on PVal (inf + -inf = nan, nan absorbs). -/
def add : PVal → PVal → PVal
  | nan, _ => nan
  | _, nan => nan
  | inf, ninf => nan
  | ninf, inf => nan
  | inf, _ => inf
  | _, inf => inf
  | ninf, _ => ninf
  | _, ninf => ninf
  | fin a, fin b => fin (a + b)

/-- IEEE-754 multiplication on PVal (inf * 0 = nan, nan absorbs). -/
def mul : PVal → PVal → PVal
  | nan, _ => nan
  | _, nan => nan
  | fin a, fin b => fin (a * b)
  | inf, fin b => if 0 < b then inf else if b < 0 then ninf else nan
  | fin a, inf => if 0 < a then inf else if a < 0 then ninf else nan
  | ninf, fin b => if 0 < b then ninf else if b < 0 then inf else nan
  | fin a, ninf => if 0 < a then ninf else if a < 0 then inf else nan
  | inf, inf => inf
  | ninf, ninf => inf
  | inf, ninf => ninf
  | ninf, inf => ninf

/-- IEEE-754 division on PVal: finite/0 gives a signed infinity
(0/0 gives nan), finite/inf gives 0, inf/inf gives nan, nan absorbs.
This is what numpy scalar division and pandas Series division produce
(numpy emits a RuntimeWarning but does not raise). -/
def div : PVal → PVal → PVal
  | nan, _ => nan
  | _, nan => nan
  | fin a, fin b =>
      if b = 0 then (if 0 < a then inf else if a < 0 then ninf else nan)
      else fin (a / b)
  | fin _, inf => fin 0
  | fin _, ninf => fin 0
  | inf, fin b => if b < 0 then ninf else inf
  | ninf, fin b => if b < 0 then inf else ninf
  | inf, inf => nan
  | inf, ninf => nan
  | ninf, inf => nan
  | ninf, ninf => nan

/-- np.abs on PVal. -/
def abs : PVal → PVal
  | fin a => fin |a|
  | inf => inf
  | ninf => inf
  | nan => nan

def isNan : PVal → Bool
  | nan => true
  | _ => false

def isFin : PVal → Bool
  | fin _ => true
  | _ => false

/-- Python float `<` comparison: any comparison with nan is False. -/
def lt : PVal → PVal → Bool
  | nan, _ => false
  | _, nan => false
  | fin a, fin b => decide (a < b)
  | fin _, inf => true
  | inf, _ => false
  | ninf, ninf => false
  | ninf, _ => true
  | fin _, ninf => false

end PVal

/-- Division of two finite floats (numpy/pandas semantics). -/
def pdivQ (a b : ℚ) : PVal := PVal.div (.fin a) (.fin b)

/-- np.mean of a pandas Series (Series.mean, skipna=True): nan entries
are dropped; the mean of an empty (or all-nan) series is nan; inf
entries propagate into the sum and hence the mean. -/
def pmeanSkip (l : List PVal) : PVal :=
  let l2 := l.filter (fun v => !v.isNan)
  if l2.length = 0 then PVal.nan
  else PVal.div (l2.foldl PVal.add (PVal.fin 0)) (PVal.fin (l2.length : ℚ))

/-- np.mean of a plain Python list of floats: no nan skipping; the mean
of an empty list is nan (numpy warns and returns nan). -/
def pmeanAll (l : List PVal) : PVal :=
  if l.length = 0 then PVal.nan
  else PVal.div (l.foldl PVal.add (PVal.fin 0)) (PVal.fin (l.length : ℚ))

/-- Python round(x, 2): nearest multiple of 1/100 (ties not exercised by
any claim; the model uses round-half-up via Mathlib's round). -/
def round2 (q : ℚ) : ℚ := ((round (100 * q) : ℤ) : ℚ) / 100

/-- round(x, 2) lifted to PVal: round(inf, 2) = inf, round(nan, 2) = nan. -/
def round2PV : PVal → PVal
  | .fin q => .fin (round2 q)
  | v => v

/-- round(sqrt(q), 2) for a nonnegative rational q = a/b: the multiple
k/100 of 1/100 nearest to the real square root of q (half rounded up).
Derivation: k = floor(100*sqrt(a/b) + 1/2) = floor((2*sqrt(10000*a*b) + b)
/ (2*b)) and floor(2*sqrt(m)) = Nat.sqrt (4*m). -/
def rsqrt2 (q : ℚ) : ℚ :=
  ((Nat.sqrt (4 * (10000 * q.num.toNat * q.den)) + q.den) / (2 * q.den) : ℕ) / 100

/-- round(np.sqrt(x), 2) on PVal: np.sqrt of a negative value is nan,
np.sqrt(inf) = inf, np.sqrt(nan) = nan. -/
def roundSqrt2 : PVal → PVal
  | .fin q => if 0 ≤ q then .fin (rsqrt2 q) else .nan
  | .inf => .inf
  | .ninf => .nan
  | .nan => .nan

/-- One row of a loaded forecast CSV ('Date', 'Actual', 'Forecast').
Dates are opaque (an integer stamp); only order and multiplicity of rows
matter to the metric computations. -/
structure Row where
  date : ℤ
  actual : ℚ
  forecast : ℚ
deriving DecidableEq

namespace MetricsCalculator

/-- src/metrics_calculator.py, calculate_metrics (lines 20-56).
The code computes, over the aligned Actual/Forecast columns:
  mae   = np.mean(np.abs(actual - forecast))
  mape  = np.mean(np.abs((actual - forecast) / actual)) * 100   (no zero guard)
  wape  = np.sum(np.abs(actual - forecast)) / np.sum(actual) * 100
  rmse  = np.sqrt(np.mean((actual - forecast) ** 2))
  bias  = np.mean(forecast - actual)
  smape = np.mean(2 * np.abs(forecast - actual) / (np.abs(actual) + np.abs(forecast))) * 100
  tracking_signal = np.sum(forecast - actual) / mae if mae != 0 else 0
and returns the dict of all seven, each rounded to 2 decimals.
The RMSE entry round(rmse, 2) is modelled by the fused roundSqrt2. -/
def calculate_metrics (df : List Row) : List (String × PVal) :=
  let mae := pmeanSkip (df.map (fun r => PVal.fin |r.actual - r.forecast|))
  let mape := (pmeanSkip (df.map (fun r =>
      (pdivQ (r.actual - r.forecast) r.actual).abs))).mul (PVal.fin 100)
  let wape := (pdivQ ((df.map (fun r => |r.actual - r.forecast|)).sum)
      ((df.map Row.actual).sum)).mul (PVal.fin 100)
  let rmse := roundSqrt2 (pmeanSkip (df.map (fun r =>
      PVal.fin ((r.actual - r.forecast) ^ 2))))
  let bias := pmeanSkip (df.map (fun r => PVal.fin (r.forecast - r.actual)))
  let smape := (pmeanSkip (df.map (fun r =>
      pdivQ (2 * |r.forecast - r.actual|) (|r.actual| + |r.forecast|)))).mul (PVal.fin 100)
  let cumulative_error := (df.map (fun r => r.forecast - r.actual)).sum
  let tracking_signal :=
    if mae = PVal.fin 0 then PVal.fin 0 else (PVal.fin cumulative_error).div mae
  [("MAE", round2PV mae),
   ("MAPE", round2PV mape),
   ("WAPE", round2PV wape),
   ("RMSE", rmse),
   ("Bias", round2PV bias),
   ("SMAPE", round2PV smape),
   ("Tracking_Signal", round2PV tracking_signal)]

end MetricsCalculator

namespace BenchmarkEngine

/-- pandas Series.replace(0, np.nan) applied to one Actual value. -/
def replace0 (a : ℚ) : PVal := if a = 0 then PVal.nan else PVal.fin a

/-- src/benchmark_engine.py, BenchmarkEngine.calculate_metrics
(lines 17-38).  Same mae/wape/rmse/bias as the metrics_calculator
module; the unguarded MAPE of line 24 is overwritten at line 30 by
  mape = np.mean(np.abs((actual - forecast) / actual.replace(0, np.nan))) * 100
so zero actuals become nan and are skipped by the Series mean.
Returns the dict of the five metrics rounded to 2 decimals. -/
def calculate_metrics (df : List Row) : List (String × PVal) :=
  let mae := pmeanSkip (df.map (fun r => PVal.fin |r.actual - r.forecast|))
  let wape := (pdivQ ((df.map (fun r => |r.actual - r.forecast|)).sum)
      ((df.map Row.actual).sum)).mul (PVal.fin 100)
  let rmse := roundSqrt2 (pmeanSkip (df.map (fun r =>
      PVal.fin ((r.actual - r.forecast) ^ 2))))
  let bias := pmeanSkip (df.map (fun r => PVal.fin (r.forecast - r.actual)))
  let mape := (pmeanSkip (df.map (fun r =>
      ((PVal.fin (r.actual - r.forecast)).div (replace0 r.actual)).abs))).mul (PVal.fin 100)
  [("MAE", round2PV mae),
   ("MAPE", round2PV mape),
   ("WAPE", round2PV wape),
   ("RMSE", rmse),
   ("Bias", round2PV bias)]

/-- The per-dataset record stored in results['vendors'][vendor][dataset]
by run_benchmark (lines 64-67): the metric dict plus the row count. -/
structure DatasetResult where
  metrics : List (String × PVal)
  records : ℕ
deriving DecidableEq

/-- results['vendors']: an insertion-ordered mapping (Python dict) from
vendor name to its insertion-ordered mapping from dataset key to result. -/
abbrev VendorResults := List (String × List (String × DatasetResult))

/-- run_benchmark's vendor-processing loop (lines 52-67).  The input is
the configured vendors in registration order, each with its
forecast_files entries; `none` stands for a file that does not exist
(os.path.exists false), `some df` for a CSV that loads.  An entry for
every vendor is created before any file check, so a vendor whose files
are all missing still appears, with an empty dataset mapping. -/
def runVendors (cfg : List (String × List (String × Option (List Row)))) : VendorResults :=
  cfg.map (fun v => (v.1, v.2.filterMap (fun d =>
    d.2.map (fun df => (d.1, DatasetResult.mk (calculate_metrics df) df.length)))))

/-- One step of _calculate_summary's best-vendor scan for one dataset
(lines 90-95): a vendor replaces the current best only when its MAPE is
strictly below the best so far (Python float `<`).  Entries whose metric
dict lacks a MAPE key are skipped (calculate_metrics always emits one;
the Python code would raise KeyError on such hand-made data). -/
def bestStep (ds : String) (best : Option String × PVal)
    (v : String × List (String × DatasetResult)) : Option String × PVal :=
  match List.lookup ds v.2 with
  | some r =>
    match List.lookup "MAPE" r.metrics with
    | some mape => if PVal.lt mape best.2 then (some v.1, mape) else best
    | none => best
  | none => best

/-- _calculate_summary, per-dataset best vendor (lines 86-95): start
from best_vendor = None, best_mape = float('inf') and scan vendors in
dict (= registration) order. -/
def bestForDataset (vendors : VendorResults) (ds : String) : Option String × PVal :=
  vendors.foldl (bestStep ds) (none, PVal.inf)

/-- _calculate_summary lines 86-100: results['summary'][dataset] =
(best_vendor, best_mape) for every configured dataset. -/
def summaryDatasets (datasets : List String) (vendors : VendorResults) :
    List (String × (Option String × PVal)) :=
  datasets.map (fun ds => (ds, bestForDataset vendors ds))

/-- _calculate_summary lines 102-110: vendor_avg_mape[vendor] =
np.mean of the list of that vendor's per-dataset MAPE values; a vendor
whose list is empty is not added. -/
def vendorAvgMape (vendors : VendorResults) : List (String × PVal) :=
  vendors.filterMap (fun v =>
    let mapes := v.2.filterMap (fun d => List.lookup "MAPE" d.2.metrics)
    if mapes.isEmpty then none else some (v.1, pmeanAll mapes))

/-- _calculate_summary lines 112-117: overall_best = min over
vendor_avg_mape (Python's min is stable: the first minimum wins), with
the average rounded to 2 decimals. -/
def overallBest (vendors : VendorResults) : Option (String × PVal) :=
  match vendorAvgMape vendors with
  | [] => none
  | a :: rest =>
    let w := rest.foldl (fun b x => if PVal.lt x.2 b.2 then x else b) a
    some (w.1, round2PV w.2)

end BenchmarkEngine

/-! ### Helper lemmas about the float model -/

theorem PVal.add_fin (a b : ℚ) : PVal.add (.fin a) (.fin b) = .fin (a + b) := rfl

theorem PVal.isNan_fin (a : ℚ) : (PVal.fin a).isNan = false := rfl

theorem foldl_add_map_fin (qs : List ℚ) (a : ℚ) :
    List.foldl PVal.add (PVal.fin a) (qs.map PVal.fin) = PVal.fin (a + qs.sum) := by
  induction qs generalizing a with
  | nil => simp
  | cons q t ih => simp [PVal.add, ih, add_assoc]

theorem filter_notNan_map_fin (qs : List ℚ) :
    (qs.map PVal.fin).filter (fun v => !v.isNan) = qs.map PVal.fin := by
  rw [List.filter_eq_self]
  intro v hv
  obtain ⟨q, _, rfl⟩ := List.mem_map.mp hv
  rfl

theorem pmeanSkip_map_fin (qs : List ℚ) (h : qs ≠ []) :
    pmeanSkip (qs.map PVal.fin) = PVal.fin (qs.sum / qs.length) := by
  have hlen : qs.length ≠ 0 := fun h0 => h (List.length_eq_zero.mp h0)
  unfold pmeanSkip
  rw [filter_notNan_map_fin]
  simp only [List.length_map, foldl_add_map_fin, zero_add]
  rw [if_neg hlen]
  simp only [PVal.div]
  rw [if_neg (by exact_mod_cast hlen)]

theorem pmeanSkip_map_comp (g : Row → ℚ) (df : List Row) (h : df ≠ []) :
    pmeanSkip (df.map (fun r => PVal.fin (g r))) = PVal.fin ((df.map g).sum / df.length) := by
  have hmap : df.map (fun r => PVal.fin (g r)) = (df.map g).map PVal.fin := by
    simp [List.map_map, Function.comp]
  rw [hmap, pmeanSkip_map_fin _ (by simpa using h), List.length_map]

/-! ### C4 -/

/-- C4: the claim asserts the MetricSet of one (provider, dataset)
evaluation also contains CRPS, Data_Drift and Turning_Point_F1.  It does
not: for the spec's own concrete input, the mapping returned by
BenchmarkEngine.calculate_metrics has no such keys (nothing anywhere in
the source computes them), refuting the claim. -/
theorem C4_counterexample :
    List.lookup "CRPS" (BenchmarkEngine.calculate_metrics
      [⟨0, 10, 12⟩, ⟨1, 20, 18⟩, ⟨2, 30, 33⟩, ⟨3, 40, 38⟩]) = none ∧
    List.lookup "Data_Drift" (BenchmarkEngine.calculate_metrics
      [⟨0, 10, 12⟩, ⟨1, 20, 18⟩, ⟨2, 30, 33⟩, ⟨3, 40, 38⟩]) = none ∧
    List.lookup "Turning_Point_F1" (BenchmarkEngine.calculate_metrics
      [⟨0, 10, 12⟩, ⟨1, 20, 18⟩, ⟨2, 30, 33⟩, ⟨3, 40, 38⟩]) = none := by
  exact ⟨rfl, rfl, rfl⟩

/-- C4 (amended): the evaluation of one (provider, dataset) pair
computes only point-accuracy metrics, every one rounded to 2 decimals:
BenchmarkEngine.calculate_metrics returns exactly the keys MAE, MAPE,
WAPE, RMSE, Bias, and metrics_calculator.calculate_metrics exactly those
plus SMAPE and Tracking_Signal; CRPS, Data_Drift and Turning_Point_F1
are never computed and no 4-decimal rounding exists. -/
theorem C4_amended_point_metric_keys (df : List Row) :
    (BenchmarkEngine.calculate_metrics df).map Prod.fst =
      ["MAE", "MAPE", "WAPE", "RMSE", "Bias"] ∧
    (MetricsCalculator.calculate_metrics df).map Prod.fst =
      ["MAE", "MAPE", "WAPE", "RMSE", "Bias", "SMAPE", "Tracking_Signal"] := by
  exact ⟨rfl, rfl⟩

/-! ### Shared lemmas for evaluating Series means -/

theorem pmeanSkip_eq_fin {l : List PVal} {qs : List ℚ}
    (hf : l.filter (fun v => !v.isNan) = qs.map PVal.fin) (h : qs ≠ []) :
    pmeanSkip l = PVal.fin (qs.sum / qs.length) := by
  have hlen : qs.length ≠ 0 := fun h0 => h (List.length_eq_zero.mp h0)
  unfold pmeanSkip
  rw [hf]
  simp only [List.length_map, foldl_add_map_fin, zero_add]
  rw [if_neg hlen]
  simp only [PVal.div]
  rw [if_neg (by exact_mod_cast hlen)]

/-- The elementwise terms of the guarded MAPE of
BenchmarkEngine.calculate_metrics: rows with a zero actual become nan
and are removed by the skipna filter; the rows that survive are exactly
the rows with nonzero actual, contributing |(actual-forecast)/actual|. -/
theorem be_mape_filter (df : List Row) :
    (df.map (fun r =>
        ((PVal.fin (r.actual - r.forecast)).div (BenchmarkEngine.replace0 r.actual)).abs)).filter
        (fun v => !v.isNan)
      = ((df.filter (fun r => decide (r.actual ≠ 0))).map
          (fun r => |(r.actual - r.forecast) / r.actual|)).map PVal.fin := by
  induction df with
  | nil => rfl
  | cons r t ih =>
    by_cases h : r.actual = 0
    · simpa [BenchmarkEngine.replace0, h, PVal.div, PVal.abs, PVal.isNan, List.filter] using ih
    · simpa [BenchmarkEngine.replace0, h, PVal.div, PVal.abs, PVal.isNan, List.filter] using ih

/-! ### C1 -/

/-- C1 (counterexample): the claim says every index with actual_i == 0
is excluded from MAPE and no Inf/NaN reaches the returned value, citing
metrics_calculator.calculate_metrics among its sources.  On the spec's
own zero-guard input actual=[0,10,20], forecast=[5,11,19], that function
divides by the zero actual and returns MAPE = +inf. -/
theorem C1_counterexample :
    List.lookup "MAPE" (MetricsCalculator.calculate_metrics
      [⟨0, 0, 5⟩, ⟨1, 10, 11⟩, ⟨2, 20, 19⟩]) = some PVal.inf := by
  norm_num [MetricsCalculator.calculate_metrics, pmeanSkip, pdivQ, PVal.div,
    PVal.abs, PVal.mul, PVal.add, PVal.isNan, round2PV, round2, List.filter,
    List.foldl, List.lookup]
  rfl

/-- C1 (amended): only BenchmarkEngine.calculate_metrics implements the
zero-actual guard: it replaces zero actuals by nan, the skipna mean
drops them, and (provided at least one actual is nonzero) the returned
MAPE is the finite mean of |(actual-forecast)/actual| over exactly the
nonzero-actual rows, times 100, rounded to 2 decimals.
metrics_calculator.calculate_metrics has no guard and propagates Inf. -/
theorem C1_amended_zero_guard (df : List Row)
    (h : ∃ r ∈ df, r.actual ≠ 0) :
    List.lookup "MAPE" (BenchmarkEngine.calculate_metrics df) =
      some (PVal.fin (round2
        ((((df.filter (fun r => decide (r.actual ≠ 0))).map
            (fun r => |(r.actual - r.forecast) / r.actual|)).sum /
          (((df.filter (fun r => decide (r.actual ≠ 0))).map
            (fun r => |(r.actual - r.forecast) / r.actual|)).length : ℚ)) * 100))) := by
  have hne : (df.filter (fun r => decide (r.actual ≠ 0))).map
      (fun r => |(r.actual - r.forecast) / r.actual|) ≠ [] := by
    obtain ⟨r, hr, hr0⟩ := h
    have hmem : r ∈ df.filter (fun r => decide (r.actual ≠ 0)) :=
      List.mem_filter.mpr ⟨hr, by simpa using hr0⟩
    intro hcon
    rw [List.map_eq_nil_iff] at hcon
    rw [hcon] at hmem
    exact (List.not_mem_nil r) hmem
  have hmean := pmeanSkip_eq_fin (be_mape_filter df) hne
  simp only [BenchmarkEngine.calculate_metrics, hmean, PVal.mul, round2PV, List.lookup]
  rfl

/-- C1 (witness): on actual=[0,10,20], forecast=[5,11,19] the engine's
guarded MAPE is the mean over the two non-zero-actual points:
(|1/10| + |1/20|)/2 * 100 = 7.5. -/
theorem C1_amended_zero_guard_witness :
    List.lookup "MAPE" (BenchmarkEngine.calculate_metrics
      [⟨0, 0, 5⟩, ⟨1, 10, 11⟩, ⟨2, 20, 19⟩]) = some (PVal.fin (15/2)) := by
  have h := C1_amended_zero_guard [⟨0, 0, 5⟩, ⟨1, 10, 11⟩, ⟨2, 20, 19⟩]
    ⟨⟨1, 10, 11⟩, by simp, by norm_num⟩
  rw [h]
  norm_num [round2, round_eq, List.filter, abs_of_nonneg]

/-! ### C3 -/

theorem rsqrt2_of_21_4 : rsqrt2 (21/4) = 229/100 := by
  unfold rsqrt2
  norm_num
  rw [show (4 * (10000 * Int.toNat 21 * 4)) = 3360000 by decide]
  rw [show Nat.sqrt 3360000 = 1833 from by norm_num]
  norm_num

/-- C3: on actual=[10,20,30,40], forecast=[12,18,33,38] the
metrics_calculator computation returns MAE=2.25, MAPE=11.25, WAPE=9.00,
RMSE=2.29 (round of sqrt(21/4)=2.2913...), Bias=0.25, SMAPE=10.84 and
Tracking_Signal=0.44 (round of 4/9=0.444...). -/
theorem C3_concrete_scenario :
    MetricsCalculator.calculate_metrics
      [⟨0, 10, 12⟩, ⟨1, 20, 18⟩, ⟨2, 30, 33⟩, ⟨3, 40, 38⟩] =
    [("MAE", PVal.fin (225/100)), ("MAPE", PVal.fin (1125/100)),
     ("WAPE", PVal.fin 9), ("RMSE", PVal.fin (229/100)),
     ("Bias", PVal.fin (25/100)), ("SMAPE", PVal.fin (1084/100)),
     ("Tracking_Signal", PVal.fin (44/100))] := by
  norm_num [MetricsCalculator.calculate_metrics, pmeanSkip, pdivQ, PVal.div,
    PVal.abs, PVal.mul, PVal.add, PVal.isNan, round2PV, round2, roundSqrt2,
    rsqrt2_of_21_4, round_eq, List.filter, List.foldl, abs_of_nonneg, abs_of_nonpos]

/-! ### C2 -/


theorem PVal.isFin_iff {v : PVal} : v.isFin = true ↔ ∃ q, v = PVal.fin q := by
  cases v <;> simp [PVal.isFin]

theorem round2PV_isFin {v : PVal} (h : v.isFin = true) : (round2PV v).isFin = true := by
  obtain ⟨q, rfl⟩ := PVal.isFin_iff.mp h
  rfl

theorem PVal.mul_fin_isFin {v : PVal} (c : ℚ) (h : v.isFin = true) :
    (v.mul (PVal.fin c)).isFin = true := by
  obtain ⟨q, rfl⟩ := PVal.isFin_iff.mp h
  rfl

theorem pdivQ_isFin {a b : ℚ} (h : b ≠ 0) : (pdivQ a b).isFin = true := by
  simp [pdivQ, PVal.div, h, PVal.isFin]

theorem exists_map_fin_of_all_isFin {l : List PVal} (h : ∀ v ∈ l, v.isFin = true) :
    ∃ qs : List ℚ, l = qs.map PVal.fin := by
  induction l with
  | nil => exact ⟨[], rfl⟩
  | cons v t ih =>
    obtain ⟨qs, rfl⟩ := ih (fun w hw => h w (List.mem_cons_of_mem _ hw))
    have hv := h v (List.mem_cons_self _ _)
    obtain ⟨q, rfl⟩ := PVal.isFin_iff.mp hv
    exact ⟨q :: qs, rfl⟩

theorem pmeanSkip_isFin {l : List PVal} (h : ∀ v ∈ l, v.isFin = true) (hne : l ≠ []) :
    (pmeanSkip l).isFin = true := by
  obtain ⟨qs, rfl⟩ := exists_map_fin_of_all_isFin h
  have hq : qs ≠ [] := by
    intro h0; rw [h0] at hne; exact hne rfl
  rw [pmeanSkip_map_fin qs hq]
  rfl

theorem roundSqrt2_isFin {q : ℚ} (h : 0 ≤ q) : (roundSqrt2 (PVal.fin q)).isFin = true := by
  simp [roundSqrt2, h, PVal.isFin]

/-- C2 (counterexample): on actual=[0], forecast=[3] the
metrics_calculator MetricSet contains MAPE = +inf: a non-finite entry
surfaces. -/
theorem C2_counterexample :
    List.lookup "MAPE" (MetricsCalculator.calculate_metrics [⟨0, 0, 3⟩]) =
      some PVal.inf ∧ PVal.inf.isFin = false := by
  constructor
  · norm_num [MetricsCalculator.calculate_metrics, pmeanSkip, pdivQ, PVal.div,
      PVal.abs, PVal.mul, PVal.add, PVal.isNan, round2PV, round2, List.filter,
      List.foldl, List.lookup]
    rfl
  · rfl

/-- C2 (amended): every entry of both MetricSets is finite provided the
input is nonempty, every actual value is nonzero and the actuals do not
sum to zero (the conditions a zero actual violates). -/
theorem C2_amended_all_finite (df : List Row) (hne : df ≠ [])
    (h0 : ∀ r ∈ df, r.actual ≠ 0) (hs : (df.map Row.actual).sum ≠ 0) :
    (∀ p ∈ MetricsCalculator.calculate_metrics df, p.2.isFin = true) ∧
    (∀ p ∈ BenchmarkEngine.calculate_metrics df, p.2.isFin = true) := by
  have hmapne : ∀ (g : Row → PVal), df.map g ≠ [] := by
    intro g hcon
    rw [List.map_eq_nil_iff] at hcon
    exact hne hcon
  have hmae : (pmeanSkip (df.map (fun r => PVal.fin |r.actual - r.forecast|))).isFin = true := by
    refine pmeanSkip_isFin ?_ (hmapne _)
    intro v hv
    obtain ⟨r, _, rfl⟩ := List.mem_map.mp hv
    rfl
  have hmaefin := PVal.isFin_iff.mp hmae
  have hmape : (pmeanSkip (df.map (fun r =>
      (pdivQ (r.actual - r.forecast) r.actual).abs))).isFin = true := by
    refine pmeanSkip_isFin ?_ (hmapne _)
    intro v hv
    obtain ⟨r, hr, rfl⟩ := List.mem_map.mp hv
    have := h0 r hr
    simp [pdivQ, PVal.div, this, PVal.abs, PVal.isFin]
  have hbmape : (pmeanSkip (df.map (fun r =>
      ((PVal.fin (r.actual - r.forecast)).div (BenchmarkEngine.replace0 r.actual)).abs))).isFin = true := by
    refine pmeanSkip_isFin ?_ (hmapne _)
    intro v hv
    obtain ⟨r, hr, rfl⟩ := List.mem_map.mp hv
    have hr0 := h0 r hr
    simp [BenchmarkEngine.replace0, hr0, PVal.div, PVal.abs, PVal.isFin]
  have hwape : (pdivQ ((df.map (fun r => |r.actual - r.forecast|)).sum)
      ((df.map Row.actual).sum)).isFin = true := pdivQ_isFin hs
  have hrmsemean : pmeanSkip (df.map (fun r => PVal.fin ((r.actual - r.forecast) ^ 2))) =
      PVal.fin ((df.map (fun r => (r.actual - r.forecast) ^ 2)).sum / df.length) :=
    pmeanSkip_map_comp _ df hne
  have hrmsepos : (0:ℚ) ≤ (df.map (fun r => (r.actual - r.forecast) ^ 2)).sum / df.length := by
    apply div_nonneg
    · apply List.sum_nonneg
      intro x hx
      obtain ⟨r, _, rfl⟩ := List.mem_map.mp hx
      positivity
    · positivity
  have hrmse : (roundSqrt2 (pmeanSkip (df.map (fun r =>
      PVal.fin ((r.actual - r.forecast) ^ 2))))).isFin = true := by
    rw [hrmsemean]
    exact roundSqrt2_isFin hrmsepos
  have hbias : (pmeanSkip (df.map (fun r => PVal.fin (r.forecast - r.actual)))).isFin = true := by
    refine pmeanSkip_isFin ?_ (hmapne _)
    intro v hv
    obtain ⟨r, _, rfl⟩ := List.mem_map.mp hv
    rfl
  have hsmape : (pmeanSkip (df.map (fun r =>
      pdivQ (2 * |r.forecast - r.actual|) (|r.actual| + |r.forecast|)))).isFin = true := by
    refine pmeanSkip_isFin ?_ (hmapne _)
    intro v hv
    obtain ⟨r, hr, rfl⟩ := List.mem_map.mp hv
    refine pdivQ_isFin ?_
    have : 0 < |r.actual| := abs_pos.mpr (h0 r hr)
    have : 0 < |r.actual| + |r.forecast| := by positivity
    exact ne_of_gt this
  have hts : (if pmeanSkip (df.map (fun r => PVal.fin |r.actual - r.forecast|)) = PVal.fin 0
      then PVal.fin 0
      else (PVal.fin ((df.map (fun r => r.forecast - r.actual)).sum)).div
        (pmeanSkip (df.map (fun r => PVal.fin |r.actual - r.forecast|)))).isFin = true := by
    obtain ⟨m, hm⟩ := hmaefin
    rw [hm]
    by_cases h : (PVal.fin m) = PVal.fin 0
    · rw [if_pos h]; rfl
    · rw [if_neg h]
      have hm0 : m ≠ 0 := by
        intro h0'; apply h; rw [h0']
      simp [PVal.div, hm0, PVal.isFin]
  refine ⟨?_, ?_⟩
  · intro p hp
    simp only [MetricsCalculator.calculate_metrics, List.mem_cons, List.not_mem_nil,
      or_false] at hp
    rcases hp with h | h | h | h | h | h | h <;> subst h
    · exact round2PV_isFin hmae
    · exact round2PV_isFin (PVal.mul_fin_isFin _ hmape)
    · exact round2PV_isFin (PVal.mul_fin_isFin _ hwape)
    · exact hrmse
    · exact round2PV_isFin hbias
    · exact round2PV_isFin (PVal.mul_fin_isFin _ hsmape)
    · exact round2PV_isFin hts
  · intro p hp
    simp only [BenchmarkEngine.calculate_metrics, List.mem_cons, List.not_mem_nil,
      or_false] at hp
    rcases hp with h | h | h | h | h <;> subst h
    · exact round2PV_isFin hmae
    · exact round2PV_isFin (PVal.mul_fin_isFin _ hbmape)
    · exact round2PV_isFin (PVal.mul_fin_isFin _ hwape)
    · exact hrmse
    · exact round2PV_isFin hbias

/-- C2 (witness): a concrete all-positive input on which every returned
entry of both MetricSets is finite. -/
theorem C2_amended_all_finite_witness :
    (∀ p ∈ MetricsCalculator.calculate_metrics [⟨0, 10, 12⟩, ⟨1, 20, 18⟩], p.2.isFin = true) ∧
    (∀ p ∈ BenchmarkEngine.calculate_metrics [⟨0, 10, 12⟩, ⟨1, 20, 18⟩], p.2.isFin = true) :=
  C2_amended_all_finite [⟨0, 10, 12⟩, ⟨1, 20, 18⟩] (by simp)
    (by intro r hr; fin_cases hr <;> norm_num) (by norm_num)

/-! ### C7 -/

theorem foldl_add_all_fin0 {l : List PVal} (h : ∀ v ∈ l, v = PVal.fin 0) (a : ℚ) :
    List.foldl PVal.add (PVal.fin a) l = PVal.fin a := by
  induction l generalizing a with
  | nil => rfl
  | cons v t ih =>
    have hv := h v (List.mem_cons_self _ _)
    subst hv
    simp only [List.foldl_cons, PVal.add_fin, add_zero]
    exact ih (fun w hw => h w (List.mem_cons_of_mem _ hw)) a

/-- A skipna mean over a series whose entries are all 0.0 or nan, with
at least one 0.0, is 0. -/
theorem pmeanSkip_zero_nan {l : List PVal}
    (h : ∀ v ∈ l, v = PVal.fin 0 ∨ v = PVal.nan)
    (hex : ∃ v ∈ l, v = PVal.fin 0) :
    pmeanSkip l = PVal.fin 0 := by
  have hall : ∀ v ∈ l.filter (fun v => !v.isNan), v = PVal.fin 0 := by
    intro v hv
    obtain ⟨hvl, hnn⟩ := List.mem_filter.mp hv
    rcases h v hvl with h0 | h0
    · exact h0
    · rw [h0] at hnn; simp [PVal.isNan] at hnn
  have hne : l.filter (fun v => !v.isNan) ≠ [] := by
    obtain ⟨v, hvl, rfl⟩ := hex
    have : PVal.fin 0 ∈ l.filter (fun v => !v.isNan) :=
      List.mem_filter.mpr ⟨hvl, rfl⟩
    intro hcon
    rw [hcon] at this
    exact (List.not_mem_nil _) this
  have hlen : (l.filter (fun v => !v.isNan)).length ≠ 0 :=
    fun h0 => hne (List.length_eq_zero.mp h0)
  unfold pmeanSkip
  rw [if_neg hlen, foldl_add_all_fin0 hall]
  simp only [PVal.div]
  rw [if_neg (by exact_mod_cast hlen)]
  norm_num

theorem round2_zero : round2 0 = 0 := by
  norm_num [round2, round_eq]

theorem rsqrt2_zero : rsqrt2 0 = 0 := by
  unfold rsqrt2
  norm_num

/-- C7 (counterexample): the identity claim quantifies over every pair
of equal series, but for actual = forecast = [0] the MAPE is nan
(0/0 then a mean over an empty skipna series), not 0. -/
theorem C7_counterexample :
    List.lookup "MAPE" (MetricsCalculator.calculate_metrics [⟨0, 0, 0⟩]) =
      some PVal.nan ∧ PVal.nan ≠ PVal.fin 0 := by
  constructor
  · norm_num [MetricsCalculator.calculate_metrics, pmeanSkip, pdivQ, PVal.div,
      PVal.abs, PVal.mul, PVal.add, PVal.isNan, round2PV, round2, List.filter,
      List.foldl, List.lookup]
    rfl
  · intro h; cases h

/-- C7 (amended): when forecast equals actual element-wise, at least one
actual is nonzero and the actuals do not sum to zero, every metric of
the metrics_calculator MetricSet is exactly 0 (the MAE = 0 branch of
Tracking_Signal yields 0, not an error). -/
theorem C7_amended_identity (df : List Row)
    (hid : ∀ r ∈ df, r.forecast = r.actual)
    (hex : ∃ r ∈ df, r.actual ≠ 0)
    (hs : (df.map Row.actual).sum ≠ 0) :
    MetricsCalculator.calculate_metrics df =
      [("MAE", PVal.fin 0), ("MAPE", PVal.fin 0), ("WAPE", PVal.fin 0),
       ("RMSE", PVal.fin 0), ("Bias", PVal.fin 0), ("SMAPE", PVal.fin 0),
       ("Tracking_Signal", PVal.fin 0)] := by
  have hne : df ≠ [] := by
    obtain ⟨r, hr, _⟩ := hex
    intro hcon; rw [hcon] at hr; exact (List.not_mem_nil r) hr
  have hmae : pmeanSkip (df.map (fun r => PVal.fin |r.actual - r.forecast|)) = PVal.fin 0 := by
    rw [pmeanSkip_map_comp _ df hne]
    have : (df.map (fun r => |r.actual - r.forecast|)).sum = 0 := by
      apply List.sum_eq_zero
      intro x hx
      obtain ⟨r, hr, rfl⟩ := List.mem_map.mp hx
      rw [hid r hr]; simp
    rw [this]; norm_num
  have hmape : pmeanSkip (df.map (fun r =>
      (pdivQ (r.actual - r.forecast) r.actual).abs)) = PVal.fin 0 := by
    apply pmeanSkip_zero_nan
    · intro v hv
      obtain ⟨r, hr, rfl⟩ := List.mem_map.mp hv
      rw [hid r hr]
      by_cases h : r.actual = 0
      · right; simp [pdivQ, PVal.div, h, PVal.abs]
      · left; simp [pdivQ, PVal.div, h, PVal.abs]
    · obtain ⟨r, hr, hr0⟩ := hex
      refine ⟨(pdivQ (r.actual - r.forecast) r.actual).abs, List.mem_map_of_mem _ hr, ?_⟩
      rw [hid r hr]
      simp [pdivQ, PVal.div, hr0, PVal.abs]
  have hwsum : (df.map (fun r => |r.actual - r.forecast|)).sum = 0 := by
    apply List.sum_eq_zero
    intro x hx
    obtain ⟨r, hr, rfl⟩ := List.mem_map.mp hx
    rw [hid r hr]; simp
  have hrmse : pmeanSkip (df.map (fun r => PVal.fin ((r.actual - r.forecast) ^ 2))) =
      PVal.fin 0 := by
    rw [pmeanSkip_map_comp _ df hne]
    have : (df.map (fun r => (r.actual - r.forecast) ^ 2)).sum = 0 := by
      apply List.sum_eq_zero
      intro x hx
      obtain ⟨r, hr, rfl⟩ := List.mem_map.mp hx
      rw [hid r hr]; simp
    rw [this]; norm_num
  have hbias : pmeanSkip (df.map (fun r => PVal.fin (r.forecast - r.actual))) = PVal.fin 0 := by
    rw [pmeanSkip_map_comp _ df hne]
    have : (df.map (fun r => r.forecast - r.actual)).sum = 0 := by
      apply List.sum_eq_zero
      intro x hx
      obtain ⟨r, hr, rfl⟩ := List.mem_map.mp hx
      rw [hid r hr]; simp
    rw [this]; norm_num
  have hsmape : pmeanSkip (df.map (fun r =>
      pdivQ (2 * |r.forecast - r.actual|) (|r.actual| + |r.forecast|))) = PVal.fin 0 := by
    apply pmeanSkip_zero_nan
    · intro v hv
      obtain ⟨r, hr, rfl⟩ := List.mem_map.mp hv
      rw [hid r hr]
      by_cases h : r.actual = 0
      · right; simp [pdivQ, PVal.div, h, PVal.abs]
      · left
        have habs : |r.actual| + |r.actual| ≠ 0 := by
          have : 0 < |r.actual| := abs_pos.mpr h
          positivity
        simp [pdivQ, PVal.div, habs]
    · obtain ⟨r, hr, hr0⟩ := hex
      refine ⟨pdivQ (2 * |r.forecast - r.actual|) (|r.actual| + |r.forecast|),
        List.mem_map_of_mem _ hr, ?_⟩
      rw [hid r hr]
      have habs : |r.actual| + |r.actual| ≠ 0 := by
        have : 0 < |r.actual| := abs_pos.mpr hr0
        positivity
      simp [pdivQ, PVal.div, habs]
  have hcum : (df.map (fun r => r.forecast - r.actual)).sum = 0 := by
    apply List.sum_eq_zero
    intro x hx
    obtain ⟨r, hr, rfl⟩ := List.mem_map.mp hx
    rw [hid r hr]; simp
  simp only [MetricsCalculator.calculate_metrics, hmae, hmape, hwsum, hrmse, hbias,
    hsmape, hcum, if_pos rfl]
  simp [pdivQ, PVal.div, hs, PVal.mul, round2PV, round2_zero, roundSqrt2, rsqrt2_zero]

/-- C7 (witness): identity on the concrete pair actual = forecast = [1, 2]. -/
theorem C7_amended_identity_witness :
    MetricsCalculator.calculate_metrics [⟨0, 1, 1⟩, ⟨1, 2, 2⟩] =
      [("MAE", PVal.fin 0), ("MAPE", PVal.fin 0), ("WAPE", PVal.fin 0),
       ("RMSE", PVal.fin 0), ("Bias", PVal.fin 0), ("SMAPE", PVal.fin 0),
       ("Tracking_Signal", PVal.fin 0)] :=
  C7_amended_identity [⟨0, 1, 1⟩, ⟨1, 2, 2⟩]
    (by intro r hr; fin_cases hr <;> rfl)
    ⟨⟨0, 1, 1⟩, by simp, by norm_num⟩
    (by norm_num)

/-! ### C9 -/

theorem PVal.add_right_comm (b x y : PVal) : (b.add x).add y = (b.add y).add x := by
  cases b <;> cases x <;> cases y <;> (simp [PVal.add]; try ring)

instance : RightCommutative PVal.add := ⟨PVal.add_right_comm⟩

theorem pmeanSkip_perm {l1 l2 : List PVal} (h : l1.Perm l2) :
    pmeanSkip l1 = pmeanSkip l2 := by
  have hf : (l1.filter (fun v => !v.isNan)).Perm (l2.filter (fun v => !v.isNan)) :=
    h.filter _
  simp only [pmeanSkip]
  rw [hf.length_eq, hf.foldl_eq]

/-- C9: the point-metric computations are invariant under any joint
permutation of the rows, and do not depend on the Date column: whenever
the multisets of (Actual, Forecast) pairs agree, both MetricSets agree
(every metric is a mean or a sum over the rows). -/
theorem C9_permutation_invariance (df df2 : List Row)
    (h : (df.map (fun r => (r.actual, r.forecast))).Perm
         (df2.map (fun r => (r.actual, r.forecast)))) :
    MetricsCalculator.calculate_metrics df = MetricsCalculator.calculate_metrics df2 ∧
    BenchmarkEngine.calculate_metrics df = BenchmarkEngine.calculate_metrics df2 := by
  have key : ∀ (g : ℚ × ℚ → PVal),
      pmeanSkip (df.map (fun r => g (r.actual, r.forecast))) =
      pmeanSkip (df2.map (fun r => g (r.actual, r.forecast))) := by
    intro g
    have h2 := pmeanSkip_perm (h.map g)
    simpa [List.map_map, Function.comp] using h2
  have keyQ : ∀ (g : ℚ × ℚ → ℚ),
      (df.map (fun r => g (r.actual, r.forecast))).sum =
      (df2.map (fun r => g (r.actual, r.forecast))).sum := by
    intro g
    have h2 := (h.map g).sum_eq
    simpa [List.map_map, Function.comp] using h2
  have hmae : pmeanSkip (df.map (fun r => PVal.fin |r.actual - r.forecast|)) =
      pmeanSkip (df2.map (fun r => PVal.fin |r.actual - r.forecast|)) :=
    key (fun p => PVal.fin |p.1 - p.2|)
  have hmape : pmeanSkip (df.map (fun r => (pdivQ (r.actual - r.forecast) r.actual).abs)) =
      pmeanSkip (df2.map (fun r => (pdivQ (r.actual - r.forecast) r.actual).abs)) :=
    key (fun p => (pdivQ (p.1 - p.2) p.1).abs)
  have hbmape : pmeanSkip (df.map (fun r =>
        ((PVal.fin (r.actual - r.forecast)).div (BenchmarkEngine.replace0 r.actual)).abs)) =
      pmeanSkip (df2.map (fun r =>
        ((PVal.fin (r.actual - r.forecast)).div (BenchmarkEngine.replace0 r.actual)).abs)) :=
    key (fun p => ((PVal.fin (p.1 - p.2)).div (BenchmarkEngine.replace0 p.1)).abs)
  have hwsum : (df.map (fun r => |r.actual - r.forecast|)).sum =
      (df2.map (fun r => |r.actual - r.forecast|)).sum :=
    keyQ (fun p => |p.1 - p.2|)
  have hasum : (df.map Row.actual).sum = (df2.map Row.actual).sum :=
    keyQ (fun p => p.1)
  have hrmse : pmeanSkip (df.map (fun r => PVal.fin ((r.actual - r.forecast) ^ 2))) =
      pmeanSkip (df2.map (fun r => PVal.fin ((r.actual - r.forecast) ^ 2))) :=
    key (fun p => PVal.fin ((p.1 - p.2) ^ 2))
  have hbias : pmeanSkip (df.map (fun r => PVal.fin (r.forecast - r.actual))) =
      pmeanSkip (df2.map (fun r => PVal.fin (r.forecast - r.actual))) :=
    key (fun p => PVal.fin (p.2 - p.1))
  have hsmape : pmeanSkip (df.map (fun r =>
        pdivQ (2 * |r.forecast - r.actual|) (|r.actual| + |r.forecast|))) =
      pmeanSkip (df2.map (fun r =>
        pdivQ (2 * |r.forecast - r.actual|) (|r.actual| + |r.forecast|))) :=
    key (fun p => pdivQ (2 * |p.2 - p.1|) (|p.1| + |p.2|))
  have hcum : (df.map (fun r => r.forecast - r.actual)).sum =
      (df2.map (fun r => r.forecast - r.actual)).sum :=
    keyQ (fun p => p.2 - p.1)
  constructor
  · simp only [MetricsCalculator.calculate_metrics, hmae, hmape, hwsum, hasum,
      hrmse, hbias, hsmape, hcum]
  · simp only [BenchmarkEngine.calculate_metrics, hmae, hbmape, hwsum, hasum,
      hrmse, hbias]

/-- C9 (witness): a concrete joint permutation (with different dates)
yields identical MetricSets. -/
theorem C9_permutation_invariance_witness :
    MetricsCalculator.calculate_metrics [⟨0, 1, 2⟩, ⟨1, 3, 4⟩] =
      MetricsCalculator.calculate_metrics [⟨7, 3, 4⟩, ⟨9, 1, 2⟩] ∧
    BenchmarkEngine.calculate_metrics [⟨0, 1, 2⟩, ⟨1, 3, 4⟩] =
      BenchmarkEngine.calculate_metrics [⟨7, 3, 4⟩, ⟨9, 1, 2⟩] :=
  C9_permutation_invariance [⟨0, 1, 2⟩, ⟨1, 3, 4⟩] [⟨7, 3, 4⟩, ⟨9, 1, 2⟩]
    (List.Perm.swap ((3:ℚ), (4:ℚ)) ((1:ℚ), (2:ℚ)) [])

/-! ### C5, C6, C8, C10: aggregation and ranking -/

theorem pmeanAll_map_fin (qs : List ℚ) (h : qs ≠ []) :
    pmeanAll (qs.map PVal.fin) = PVal.fin (qs.sum / qs.length) := by
  have hlen : qs.length ≠ 0 := fun h0 => h (List.length_eq_zero.mp h0)
  unfold pmeanAll
  simp only [List.length_map, foldl_add_map_fin, zero_add]
  rw [if_neg hlen]
  simp only [PVal.div]
  rw [if_neg (by exact_mod_cast hlen)]

/-- C5: the per-provider aggregate of _calculate_summary is the simple
unweighted arithmetic mean: whenever the MAPE values collected from a
vendor's (successfully evaluated) datasets are the finite values qs,
vendor_avg_mape records exactly sum(qs)/len(qs) for that vendor. -/
theorem C5_average_unweighted_mean (vendors : BenchmarkEngine.VendorResults)
    (name : String) (dsrs : List (String × BenchmarkEngine.DatasetResult)) (qs : List ℚ)
    (hmem : (name, dsrs) ∈ vendors)
    (hq : dsrs.filterMap (fun d => List.lookup "MAPE" d.2.metrics) = qs.map PVal.fin)
    (hne : qs ≠ []) :
    (name, PVal.fin (qs.sum / qs.length)) ∈ BenchmarkEngine.vendorAvgMape vendors := by
  apply List.mem_filterMap.mpr
  refine ⟨(name, dsrs), hmem, ?_⟩
  have hmapne : qs.map PVal.fin ≠ [] := by
    intro hcon
    rw [List.map_eq_nil_iff] at hcon
    exact hne hcon
  simp only [BenchmarkEngine.vendorAvgMape, hq]
  rw [List.isEmpty_eq_false.mpr hmapne]
  rw [pmeanAll_map_fin qs hne]
  simp

/-- C5 (witness): a provider with two datasets of MAPE 10.0 and 20.0
averages to exactly 15.0. -/
theorem C5_average_unweighted_mean_witness :
    ("P1", PVal.fin 15) ∈ BenchmarkEngine.vendorAvgMape
      [("P1", [("d1", ⟨[("MAPE", PVal.fin 10)], 3⟩), ("d2", ⟨[("MAPE", PVal.fin 20)], 3⟩)])] := by
  have h := C5_average_unweighted_mean
    [("P1", [("d1", ⟨[("MAPE", PVal.fin 10)], 3⟩), ("d2", ⟨[("MAPE", PVal.fin 20)], 3⟩)])]
    "P1" [("d1", ⟨[("MAPE", PVal.fin 10)], 3⟩), ("d2", ⟨[("MAPE", PVal.fin 20)], 3⟩)]
    [10, 20] (by simp) rfl (by simp)
  norm_num at h
  exact h

theorem PVal.lt_fin_self (m : ℚ) : (PVal.fin m).lt (PVal.fin m) = false := by
  simp [PVal.lt]

theorem PVal.lt_asymmetric {x y : PVal} (h : x.lt y = true) : y.lt x = false := by
  cases x <;> cases y <;> simp [PVal.lt] at h ⊢
  exact le_of_lt h

/-- Evaluation of one bestStep when the vendor has the dataset and a
MAPE entry. -/
theorem bestStep_some (ds : String) (best : Option String × PVal) (name : String)
    (l : List (String × BenchmarkEngine.DatasetResult)) (r : BenchmarkEngine.DatasetResult)
    (mv : PVal) (hr : List.lookup ds l = some r)
    (hm : List.lookup "MAPE" r.metrics = some mv) :
    BenchmarkEngine.bestStep ds best (name, l) =
      if mv.lt best.2 = true then (some name, mv) else best := by
  unfold BenchmarkEngine.bestStep
  simp only [hr, hm]

theorem bestStep_nods (ds : String) (best : Option String × PVal) (name : String)
    (l : List (String × BenchmarkEngine.DatasetResult))
    (hr : List.lookup ds l = none) :
    BenchmarkEngine.bestStep ds best (name, l) = best := by
  unfold BenchmarkEngine.bestStep
  simp only [hr]

theorem bestStep_nomape (ds : String) (best : Option String × PVal) (name : String)
    (l : List (String × BenchmarkEngine.DatasetResult)) (r : BenchmarkEngine.DatasetResult)
    (hr : List.lookup ds l = some r) (hm : List.lookup "MAPE" r.metrics = none) :
    BenchmarkEngine.bestStep ds best (name, l) = best := by
  unfold BenchmarkEngine.bestStep
  simp only [hr, hm]

/-- Scanning further vendors never moves the best away from a value that
nothing in the remainder strictly beats. -/
theorem bestFold_keeps (ds : String) (m : ℚ) (a : String)
    (l : BenchmarkEngine.VendorResults)
    (hl : ∀ v ∈ l, ∀ r, List.lookup ds v.2 = some r →
      ∀ mv, List.lookup "MAPE" r.metrics = some mv → mv.lt (PVal.fin m) = false) :
    List.foldl (BenchmarkEngine.bestStep ds) (some a, PVal.fin m) l = (some a, PVal.fin m) := by
  induction l with
  | nil => rfl
  | cons v t ih =>
    obtain ⟨vn, vl⟩ := v
    have hstep : BenchmarkEngine.bestStep ds (some a, PVal.fin m) (vn, vl) =
        (some a, PVal.fin m) := by
      cases hvl : List.lookup ds vl with
      | none => exact bestStep_nods ds _ vn vl hvl
      | some r =>
        cases hvm : List.lookup "MAPE" r.metrics with
        | none => exact bestStep_nomape ds _ vn vl r hvl hvm
        | some mv =>
          rw [bestStep_some ds _ vn vl r mv hvl hvm]
          have hf := hl (vn, vl) (List.mem_cons_self _ _) r hvl mv hvm
          simp [hf]
    simp only [List.foldl_cons, hstep]
    exact ih (fun w hw => hl w (List.mem_cons_of_mem _ hw))

/-- While every scanned vendor is strictly worse than m, the running
best value stays strictly above m. -/
theorem bestFold_above (ds : String) (m : ℚ)
    (l : BenchmarkEngine.VendorResults)
    (hl : ∀ v ∈ l, ∀ r, List.lookup ds v.2 = some r →
      ∀ mv, List.lookup "MAPE" r.metrics = some mv → (PVal.fin m).lt mv = true)
    (b : Option String × PVal) (hb : (PVal.fin m).lt b.2 = true) :
    (PVal.fin m).lt (List.foldl (BenchmarkEngine.bestStep ds) b l).2 = true := by
  induction l generalizing b with
  | nil => exact hb
  | cons v t ih =>
    obtain ⟨vn, vl⟩ := v
    simp only [List.foldl_cons]
    refine ih (fun w hw => hl w (List.mem_cons_of_mem _ hw)) _ ?_
    cases hvl : List.lookup ds vl with
    | none => rw [bestStep_nods ds _ vn vl hvl]; exact hb
    | some r =>
      cases hvm : List.lookup "MAPE" r.metrics with
      | none => rw [bestStep_nomape ds _ vn vl r hvl hvm]; exact hb
      | some mv =>
        rw [bestStep_some ds _ vn vl r mv hvl hvm]
        by_cases hlt : mv.lt b.2 = true
        · rw [if_pos hlt]
          exact hl (vn, vl) (List.mem_cons_self _ _) r hvl mv hvm
        · rw [if_neg hlt]
          exact hb

/-- C6: _calculate_summary's per-dataset ranking picks the provider
minimizing MAPE and breaks ties by registration order: if providers a
and b both attain the best value m (a registered before b) and every
other provider is strictly worse, the winner is a.  The selection is a
pure function of the registered order and the metric values, hence
reproducible across runs. -/
theorem C6_tiebreak_first_registered
    (pre mid post : BenchmarkEngine.VendorResults)
    (a b : String) (la lb : List (String × BenchmarkEngine.DatasetResult))
    (ra rb : BenchmarkEngine.DatasetResult) (ds : String) (m : ℚ)
    (hla : List.lookup ds la = some ra)
    (hma : List.lookup "MAPE" ra.metrics = some (PVal.fin m))
    (hlb : List.lookup ds lb = some rb)
    (hmb : List.lookup "MAPE" rb.metrics = some (PVal.fin m))
    (hothers : ∀ v ∈ pre ++ mid ++ post, ∀ r, List.lookup ds v.2 = some r →
      ∀ mv, List.lookup "MAPE" r.metrics = some mv → (PVal.fin m).lt mv = true) :
    BenchmarkEngine.bestForDataset (pre ++ ((a, la) :: (mid ++ ((b, lb) :: post)))) ds =
      (some a, PVal.fin m) := by
  have hpre : ∀ v ∈ pre, ∀ r, List.lookup ds v.2 = some r →
      ∀ mv, List.lookup "MAPE" r.metrics = some mv → (PVal.fin m).lt mv = true :=
    fun v hv => hothers v (by simp [hv])
  have hmid : ∀ v ∈ mid, ∀ r, List.lookup ds v.2 = some r →
      ∀ mv, List.lookup "MAPE" r.metrics = some mv → mv.lt (PVal.fin m) = false :=
    fun v hv r hr mv hm => PVal.lt_asymmetric (hothers v (by simp [hv]) r hr mv hm)
  have hpost : ∀ v ∈ post, ∀ r, List.lookup ds v.2 = some r →
      ∀ mv, List.lookup "MAPE" r.metrics = some mv → mv.lt (PVal.fin m) = false :=
    fun v hv r hr mv hm => PVal.lt_asymmetric (hothers v (by simp [hv]) r hr mv hm)
  unfold BenchmarkEngine.bestForDataset
  rw [List.foldl_append, List.foldl_cons]
  have h1 : (PVal.fin m).lt
      (List.foldl (BenchmarkEngine.bestStep ds) (none, PVal.inf) pre).2 = true :=
    bestFold_above ds m pre hpre (none, PVal.inf) rfl
  rw [bestStep_some ds _ a la ra (PVal.fin m) hla hma, if_pos h1]
  rw [List.foldl_append, bestFold_keeps ds m a mid hmid, List.foldl_cons]
  rw [bestStep_some ds _ b lb rb (PVal.fin m) hlb hmb, if_neg ?hne]
  case hne =>
    rw [PVal.lt_fin_self]
    exact Bool.false_ne_true
  exact bestFold_keeps ds m a post hpost

/-- C6 (witness): two providers tied at MAPE 10 for dataset d resolve
to the first-registered provider P1. -/
theorem C6_tiebreak_first_registered_witness :
    BenchmarkEngine.bestForDataset
      [("P1", [("d", ⟨[("MAPE", PVal.fin 10)], 4⟩)]),
       ("P2", [("d", ⟨[("MAPE", PVal.fin 10)], 4⟩)])] "d" =
      (some "P1", PVal.fin 10) := by
  have h := C6_tiebreak_first_registered [] [] [] "P1" "P2"
    [("d", ⟨[("MAPE", PVal.fin 10)], 4⟩)] [("d", ⟨[("MAPE", PVal.fin 10)], 4⟩)]
    ⟨[("MAPE", PVal.fin 10)], 4⟩ ⟨[("MAPE", PVal.fin 10)], 4⟩ "d" 10
    rfl rfl rfl rfl (by intro v hv; simp at hv)
  simpa using h

theorem bestFold_all_missing (ds : String) (l : BenchmarkEngine.VendorResults)
    (hl : ∀ v ∈ l, List.lookup ds v.2 = none) (init : Option String × PVal) :
    List.foldl (BenchmarkEngine.bestStep ds) init l = init := by
  induction l generalizing init with
  | nil => rfl
  | cons v t ih =>
    obtain ⟨vn, vl⟩ := v
    simp only [List.foldl_cons]
    rw [bestStep_nods ds init vn vl (hl (vn, vl) (List.mem_cons_self _ _))]
    exact ih (fun w hw => hl w (List.mem_cons_of_mem _ hw)) init

/-- C10: a configured dataset with metrics from no provider still gets a
summary entry (best_vendor = None, best_mape = float('inf')); the
non-finite sentinel is recorded in the results rather than omitting the
dataset (json.dump then serializes it as Infinity). -/
theorem C10_empty_dataset_sentinel (datasets : List String)
    (vendors : BenchmarkEngine.VendorResults) (ds : String)
    (hds : ds ∈ datasets)
    (hnone : ∀ v ∈ vendors, List.lookup ds v.2 = none) :
    (ds, (none, PVal.inf)) ∈ BenchmarkEngine.summaryDatasets datasets vendors := by
  apply List.mem_map.mpr
  refine ⟨ds, hds, ?_⟩
  unfold BenchmarkEngine.bestForDataset
  rw [bestFold_all_missing ds vendors hnone]

/-- C10 (witness): dataset d1 is configured but no vendor has results
for it; the summary records (d1, (None, inf)). -/
theorem C10_empty_dataset_sentinel_witness :
    ("d1", (none, PVal.inf)) ∈ BenchmarkEngine.summaryDatasets ["d1"]
      [("V", [("other", ⟨[("MAPE", PVal.fin 5)], 2⟩)])] :=
  C10_empty_dataset_sentinel ["d1"] [("V", [("other", ⟨[("MAPE", PVal.fin 5)], 2⟩)])] "d1"
    (by simp) (by intro v hv; simp at hv; rw [hv]; rfl)

/-- The winner of the stable-min fold over the averaged list is an
element of that list. -/
theorem foldl_min_mem (l : List (String × PVal)) (a : String × PVal) :
    l.foldl (fun b x => if PVal.lt x.2 b.2 then x else b) a ∈ a :: l := by
  induction l generalizing a with
  | nil => simp
  | cons x t ih =>
    simp only [List.foldl_cons]
    have h := ih (if PVal.lt x.2 a.2 then x else a)
    rcases List.mem_cons.mp h with h1 | h1
    · rw [h1]
      by_cases hc : PVal.lt x.2 a.2
      · simp [hc]
      · simp [hc]
    · simp [List.mem_cons_of_mem, h1]

/-- C8 (counterexample): the claim says a provider with zero successful
datasets is excluded from the result entirely; but run_benchmark creates
results['vendors'][name] before checking any file, so vendor V (whose
only file is missing) appears in the output mapping with an empty
dataset map. -/
theorem C8_counterexample :
    BenchmarkEngine.runVendors [("V", [("d1", none)])] = [("V", [])] := rfl

/-- C8 (amended): a provider none of whose files load still appears in
results['vendors'] (with an empty dataset mapping), but it is omitted
from every ranking: it gets no vendor_avg_mape entry, it is never the
best vendor of any dataset, and it is never the overall best. -/
theorem C8_no_success_vendor (cfg : List (String × List (String × Option (List Row))))
    (name : String)
    (hnames : ∀ files, (name, files) ∈ cfg → ∀ f ∈ files, f.2 = none)
    (hmem : ∃ files, (name, files) ∈ cfg) :
    ((name, []) ∈ BenchmarkEngine.runVendors cfg) ∧
    (name ∉ (BenchmarkEngine.vendorAvgMape (BenchmarkEngine.runVendors cfg)).map Prod.fst) ∧
    (∀ ds, (BenchmarkEngine.bestForDataset (BenchmarkEngine.runVendors cfg) ds).1 ≠ some name) ∧
    ((BenchmarkEngine.overallBest (BenchmarkEngine.runVendors cfg)).map Prod.fst ≠ some name) := by
  have hempty : ∀ v ∈ BenchmarkEngine.runVendors cfg, v.1 = name → v.2 = [] := by
    intro v hv h1
    obtain ⟨c, hc, rfl⟩ := List.mem_map.mp hv
    obtain ⟨c1, c2⟩ := c
    simp only at h1
    subst h1
    apply List.filterMap_eq_nil_iff.mpr
    intro d hd
    rw [hnames c2 hc d hd]
    rfl
  have havg : ∀ p ∈ BenchmarkEngine.vendorAvgMape (BenchmarkEngine.runVendors cfg),
      p.1 ≠ name := by
    intro p hp h1
    obtain ⟨v, hv, hsome⟩ := List.mem_filterMap.mp hp
    by_cases hie : (v.2.filterMap (fun d => List.lookup "MAPE" d.2.metrics)).isEmpty
    · simp only [BenchmarkEngine.vendorAvgMape, hie, if_pos] at hsome
      exact Option.noConfusion hsome
    · simp only [BenchmarkEngine.vendorAvgMape, hie, if_neg, Bool.false_eq_true,
        not_false_eq_true] at hsome
      have hv1 : v.1 = name := by
        rw [← h1]
        exact congrArg Prod.fst (Option.some.inj hsome)
      rw [hempty v hv hv1] at hie
      simp at hie
  refine ⟨?_, ?_, ?_, ?_⟩
  · obtain ⟨files, hf⟩ := hmem
    have : (name, List.filterMap (fun d =>
        (d.2).map (fun df => (d.1, BenchmarkEngine.DatasetResult.mk
          (BenchmarkEngine.calculate_metrics df) df.length))) files) ∈
        BenchmarkEngine.runVendors cfg := List.mem_map_of_mem _ hf
    have hnil : List.filterMap (fun d =>
        (d.2).map (fun df => (d.1, BenchmarkEngine.DatasetResult.mk
          (BenchmarkEngine.calculate_metrics df) df.length))) files = [] := by
      apply List.filterMap_eq_nil_iff.mpr
      intro d hd
      rw [hnames files hf d hd]
      rfl
    rwa [hnil] at this
  · intro hin
    obtain ⟨p, hp, hp1⟩ := List.mem_map.mp hin
    exact havg p hp hp1
  · intro ds
    have : ∀ (l : BenchmarkEngine.VendorResults),
        (∀ v ∈ l, v.1 = name → v.2 = []) →
        ∀ init : Option String × PVal, init.1 ≠ some name →
        (List.foldl (BenchmarkEngine.bestStep ds) init l).1 ≠ some name := by
      intro l
      induction l with
      | nil => intro _ init h; exact h
      | cons v t ih =>
        intro hl init hinit
        obtain ⟨vn, vl⟩ := v
        simp only [List.foldl_cons]
        refine ih (fun w hw => hl w (List.mem_cons_of_mem _ hw)) _ ?_
        cases hvl : List.lookup ds vl with
        | none => rw [bestStep_nods ds init vn vl hvl]; exact hinit
        | some r =>
          cases hvm : List.lookup "MAPE" r.metrics with
          | none => rw [bestStep_nomape ds init vn vl r hvl hvm]; exact hinit
          | some mv =>
            rw [bestStep_some ds init vn vl r mv hvl hvm]
            by_cases hlt : mv.lt init.2 = true
            · rw [if_pos hlt]
              intro hcon
              simp only at hcon
              have hvn : vn = name := Option.some.inj hcon
              have := hl (vn, vl) (List.mem_cons_self _ _) hvn
              simp only at this
              rw [this] at hvl
              cases hvl
            · rw [if_neg hlt]
              exact hinit
    exact this (BenchmarkEngine.runVendors cfg) hempty (none, PVal.inf) (by simp)
  · intro hcon
    unfold BenchmarkEngine.overallBest at hcon
    cases havgs : BenchmarkEngine.vendorAvgMape (BenchmarkEngine.runVendors cfg) with
    | nil => rw [havgs] at hcon; simp at hcon
    | cons a rest =>
      rw [havgs] at hcon
      have hw1 : (rest.foldl (fun b x => if PVal.lt x.2 b.2 then x else b) a).1 = name := by
        simpa using hcon
      have hwmem : (rest.foldl (fun b x => if PVal.lt x.2 b.2 then x else b) a) ∈ a :: rest :=
        foldl_min_mem rest a
      have : (rest.foldl (fun b x => if PVal.lt x.2 b.2 then x else b) a) ∈
          BenchmarkEngine.vendorAvgMape (BenchmarkEngine.runVendors cfg) := by
        rw [havgs]; exact hwmem
      exact havg _ this hw1

/-- C8 (witness): vendor V has one missing file, vendor W one loaded
dataset; V appears with an empty mapping, gets no average, and is never
best (for dataset d1 or overall). -/
theorem C8_no_success_vendor_witness :
    ((("V"), ([] : List (String × BenchmarkEngine.DatasetResult))) ∈
      BenchmarkEngine.runVendors [("V", [("d1", none)]), ("W", [("d1", some [⟨0, 1, 2⟩])])]) ∧
    ("V" ∉ (BenchmarkEngine.vendorAvgMape (BenchmarkEngine.runVendors
      [("V", [("d1", none)]), ("W", [("d1", some [⟨0, 1, 2⟩])])])).map Prod.fst) ∧
    ((BenchmarkEngine.bestForDataset (BenchmarkEngine.runVendors
      [("V", [("d1", none)]), ("W", [("d1", some [⟨0, 1, 2⟩])])]) "d1").1 ≠ some "V") ∧
    ((BenchmarkEngine.overallBest (BenchmarkEngine.runVendors
      [("V", [("d1", none)]), ("W", [("d1", some [⟨0, 1, 2⟩])])])).map Prod.fst ≠ some "V") := by
  have h := C8_no_success_vendor [("V", [("d1", none)]), ("W", [("d1", some [⟨0, 1, 2⟩])])] "V"
    (by
      intro files hf f hmemf
      simp only [List.mem_cons, List.not_mem_nil, or_false] at hf
      rcases hf with h1 | h1
      · have : files = [("d1", none)] := (Prod.mk.injEq _ _ _ _).mp h1 |>.2
        subst this
        simp only [List.mem_cons, List.not_mem_nil, or_false] at hmemf
        subst hmemf
        rfl
      · exact absurd ((Prod.mk.injEq _ _ _ _).mp h1).1 (by simp))
    ⟨[("d1", none)], by simp⟩
  exact ⟨h.1, h.2.1, h.2.2.1 "d1", h.2.2.2⟩
